import Mathlib

set_option maxRecDepth 100000

/-!
Shallow embedding of `transaction_decoder.py`, a Bitcoin raw-transaction hex
decoder, together with theorems settling the specification claims.

The Python code works directly on the hexadecimal *string*, with all offsets
counted in hex characters (two characters per byte).  We model the input as
`List Char` and the offsets as `Nat`, and reproduce the Python string
primitives the code relies on:

* `pySlice s a b` models the slice `s[a:b]` (clamped at the end of the
  string, empty when `a` is past the end);
* `int_hex s` models `int(s, 16)`: `none` when the string is empty or
  contains a character that is not a hex digit (Python additionally accepts
  signs, whitespace and underscores, which never occur in the inputs
  considered here), otherwise the big-endian base-16 value of the digits;
* `bytes_fromhex s` models `bytes.fromhex(s)`: `none` on an odd number of
  digits or a non-hex character, otherwise the byte list;
* `int_from_bytes_le bs` models `int.from_bytes(bs, byteorder='little')`;
* `bytes_hex bs` models `bs.hex()` (lowercase hex encoding).

A `none` result models the Python code raising an exception (`ValueError`
from `int`/`bytes.fromhex`); the code defines no exception classes of its
own.  Bytes are `Nat` values (< 256 for genuine bytes).  The float division
`value / 1e8` performed for display of output amounts is not modelled; the
`value` field stores the little-endian integer the code computes before
dividing.
-/

/-- Value of a single hexadecimal digit character, `none` for non-hex. -/
def hexDigitVal (c : Char) : Option Nat :=
  if 48 ≤ c.toNat ∧ c.toNat ≤ 57 then some (c.toNat - 48)
  else if 97 ≤ c.toNat ∧ c.toNat ≤ 102 then some (c.toNat - 87)
  else if 65 ≤ c.toNat ∧ c.toNat ≤ 70 then some (c.toNat - 55)
  else none

/-- Values of all characters of a string, `none` if any is not a hex digit. -/
def hexDigitsVal : List Char → Option (List Nat)
  | [] => some []
  | c :: cs =>
    match hexDigitVal c, hexDigitsVal cs with
    | some d, some ds => some (d :: ds)
    | _, _ => none

/-- Python slice `s[a:b]` for `a ≤ b`. -/
def pySlice (s : List Char) (a b : Nat) : List Char :=
  (s.drop a).take (b - a)

/-- Python `int(s, 16)` on a plain string of hex digits: `none` (a raised
`ValueError`) when `s` is empty or has a non-hex character, otherwise the
big-endian base-16 value. -/
def int_hex (s : List Char) : Option Nat :=
  if s.isEmpty then none
  else (hexDigitsVal s).map (fun ds => ds.foldl (fun a d => 16 * a + d) 0)

/-- Pair up a list of hex-digit values into bytes; `none` on odd length. -/
def hexPairsToBytes : List Nat → Option (List Nat)
  | [] => some []
  | [_] => none
  | d1 :: d2 :: ds => (hexPairsToBytes ds).map (fun bs => (16 * d1 + d2) :: bs)

/-- Python `bytes.fromhex s`: bytes of an even-length hex string, `none`
(a raised `ValueError`) on odd length or a non-hex character. -/
def bytes_fromhex (s : List Char) : Option (List Nat) :=
  (hexDigitsVal s).bind hexPairsToBytes

/-- Python `int.from_bytes(bs, byteorder='little')`. -/
def int_from_bytes_le : List Nat → Nat
  | [] => 0
  | b :: bs => b + 256 * int_from_bytes_le bs

/-- Lowercase hex character of a digit value below 16. -/
def hexCharOfDigit (n : Nat) : Char :=
  if n < 10 then Char.ofNat (48 + n) else Char.ofNat (87 + n)

/-- Python `bs.hex()`: lowercase hex encoding of a byte list. -/
def bytes_hex : List Nat → List Char
  | [] => []
  | b :: bs => hexCharOfDigit (b / 16) :: hexCharOfDigit (b % 16) :: bytes_hex bs

/-- Embedding of `read_bytes(tx_hex, offset, length)` (source lines 10-16):
slice `length * 2` hex characters, convert with `bytes.fromhex`, and return
the bytes together with `offset + length * 2`.  Note the source performs no
check that the slice actually holds `length` bytes. -/
def read_bytes (tx_hex : List Char) (offset length : Nat) : Option (List Nat × Nat) :=
  (bytes_fromhex (pySlice tx_hex offset (offset + length * 2))).map
    (fun bytes_data => (bytes_data, offset + length * 2))

/-- Embedding of `read_varint(tx_hex, offset)` (source lines 19-40).  The
follow-on value for the `0xfd`/`0xfe`/`0xff` forms is computed by
`int(tx_hex[offset:offset+k], 16)`, i.e. from the hex characters in
big-endian order, exactly as the source does. -/
def read_varint (tx_hex : List Char) (offset : Nat) : Option (Nat × Nat) :=
  match int_hex (pySlice tx_hex offset (offset + 2)) with
  | none => none
  | some first_byte =>
    let offset := offset + 2
    if first_byte < 0xfd then some (first_byte, offset)
    else if first_byte = 0xfd then
      (int_hex (pySlice tx_hex offset (offset + 4))).map (fun v => (v, offset + 4))
    else if first_byte = 0xfe then
      (int_hex (pySlice tx_hex offset (offset + 8))).map (fun v => (v, offset + 8))
    else
      (int_hex (pySlice tx_hex offset (offset + 16))).map (fun v => (v, offset + 16))

/-- One decoded transaction input (source lines 82-87). -/
structure TxInput where
  txid : List Char
  vout : Nat
  scriptSig : List Char
  sequence : Nat
  deriving Repr, DecidableEq

/-- One decoded transaction output (source lines 99-102).  `value` is the
little-endian integer the source computes; the source then divides by `1e8`
for display, which is not part of the model. -/
structure TxOutput where
  value : Nat
  scriptPubKey : List Char
  deriving Repr, DecidableEq

/-- The decoded transaction record returned by `parse_transaction`
(source lines 120-127). -/
structure Transaction where
  version : Nat
  segwit : Bool
  inputs : List TxInput
  outputs : List TxOutput
  witnesses : List (List (List Char))
  locktime : Nat
  deriving Repr, DecidableEq

/-- Embedding of the SegWit marker/flag detection (source lines 59-66):
both `int(...)` reads are evaluated unconditionally; when `marker == 0 and
flag != 0` the offset advances by 4 hex characters (2 bytes), otherwise it
is left unchanged. -/
def segwit_check (tx_hex : List Char) (offset : Nat) : Option (Bool × Nat) :=
  match int_hex (pySlice tx_hex offset (offset + 2)),
        int_hex (pySlice tx_hex (offset + 2) (offset + 4)) with
  | some marker, some flag =>
    if marker = 0 ∧ flag ≠ 0 then some (true, offset + 4) else some (false, offset)
  | _, _ => none

/-- Embedding of one iteration of the input-parsing loop
(source lines 74-87). -/
def parse_input (tx_hex : List Char) (offset : Nat) : Option (TxInput × Nat) :=
  match read_bytes tx_hex offset 32 with
  | none => none
  | some (txid_bytes, offset) =>
    match read_bytes tx_hex offset 4 with
    | none => none
    | some (vout_bytes, offset) =>
      match read_varint tx_hex offset with
      | none => none
      | some (script_len, offset) =>
        match read_bytes tx_hex offset script_len with
        | none => none
        | some (script_sig_bytes, offset) =>
          match read_bytes tx_hex offset 4 with
          | none => none
          | some (sequence_bytes, offset) =>
            some ({ txid := bytes_hex txid_bytes.reverse,
                    vout := int_from_bytes_le vout_bytes,
                    scriptSig := bytes_hex script_sig_bytes,
                    sequence := int_from_bytes_le sequence_bytes }, offset)

/-- The input loop `for _ in range(input_count)` (source lines 72-87),
by recursion on the count. -/
def parse_inputs (tx_hex : List Char) : Nat → Nat → Option (List TxInput × Nat)
  | 0, offset => some ([], offset)
  | Nat.succ n, offset =>
    match parse_input tx_hex offset with
    | none => none
    | some (i, offset) =>
      match parse_inputs tx_hex n offset with
      | none => none
      | some (rest, offset) => some (i :: rest, offset)

/-- Embedding of one iteration of the output-parsing loop
(source lines 95-102). -/
def parse_output (tx_hex : List Char) (offset : Nat) : Option (TxOutput × Nat) :=
  match read_bytes tx_hex offset 8 with
  | none => none
  | some (value_bytes, offset) =>
    match read_varint tx_hex offset with
    | none => none
    | some (script_len, offset) =>
      match read_bytes tx_hex offset script_len with
      | none => none
      | some (script_pubkey_bytes, offset) =>
        some ({ value := int_from_bytes_le value_bytes,
                scriptPubKey := bytes_hex script_pubkey_bytes }, offset)

/-- The output loop `for _ in range(output_count)` (source lines 93-102). -/
def parse_outputs (tx_hex : List Char) : Nat → Nat → Option (List TxOutput × Nat)
  | 0, offset => some ([], offset)
  | Nat.succ n, offset =>
    match parse_output tx_hex offset with
    | none => none
    | some (o, offset) =>
      match parse_outputs tx_hex n offset with
      | none => none
      | some (rest, offset) => some (o :: rest, offset)

/-- The inner witness-item loop `for _ in range(witness_count)`
(source lines 110-113). -/
def parse_witness_items (tx_hex : List Char) : Nat → Nat → Option (List (List Char) × Nat)
  | 0, offset => some ([], offset)
  | Nat.succ n, offset =>
    match read_varint tx_hex offset with
    | none => none
    | some (item_len, offset) =>
      match read_bytes tx_hex offset item_len with
      | none => none
      | some (item_bytes, offset) =>
        match parse_witness_items tx_hex n offset with
        | none => none
        | some (rest, offset) => some (bytes_hex item_bytes :: rest, offset)

/-- One per-input witness stack: a varint item count followed by that many
length-prefixed items (source lines 108-113). -/
def parse_witness_stack (tx_hex : List Char) (offset : Nat) : Option (List (List Char) × Nat) :=
  match read_varint tx_hex offset with
  | none => none
  | some (witness_count, offset) => parse_witness_items tx_hex witness_count offset

/-- The witness loop `for i in range(input_count)` (source lines 107-114). -/
def parse_witnesses (tx_hex : List Char) : Nat → Nat → Option (List (List (List Char)) × Nat)
  | 0, offset => some ([], offset)
  | Nat.succ n, offset =>
    match parse_witness_stack tx_hex offset with
    | none => none
    | some (stack, offset) =>
      match parse_witnesses tx_hex n offset with
      | none => none
      | some (rest, offset) => some (stack :: rest, offset)

/-- Embedding of `parse_transaction(tx_hex)` (source lines 43-127): version,
SegWit marker/flag check, input count and inputs, output count and outputs,
witnesses when SegWit, locktime. -/
def parse_transaction (tx_hex : List Char) : Option Transaction :=
  match read_bytes tx_hex 0 4 with
  | none => none
  | some (version_bytes, offset) =>
    match segwit_check tx_hex offset with
    | none => none
    | some (segwit, offset) =>
      match read_varint tx_hex offset with
      | none => none
      | some (input_count, offset) =>
        match parse_inputs tx_hex input_count offset with
        | none => none
        | some (inputs, offset) =>
          match read_varint tx_hex offset with
          | none => none
          | some (output_count, offset) =>
            match parse_outputs tx_hex output_count offset with
            | none => none
            | some (outputs, offset) =>
              match (if segwit then parse_witnesses tx_hex input_count offset
                     else some ([], offset)) with
              | none => none
              | some (witnesses, offset) =>
                match read_bytes tx_hex offset 4 with
                | none => none
                | some (locktime_bytes, _) =>
                  some { version := int_from_bytes_le version_bytes,
                         segwit := segwit,
                         inputs := inputs,
                         outputs := outputs,
                         witnesses := witnesses,
                         locktime := int_from_bytes_le locktime_bytes }

/-- The sample transaction hex hardcoded in the source's main block
(source line 131). -/
def sample_tx_hex : List Char :=
  ("0200000000010131811cd355c357e0e01437d9bcf690df824e9ff785012b6115dfae3d8e8b36c10100000000fdffffff0220a107000000000016001485d78eb795bd9c8a21afefc8b6fdaedf718368094c08100000000000160014840ab165c9c2555d4a31b9208ad806f89d2535e20247304402207bce86d430b58bb6b79e8c1bbecdf67a530eff3bc61581a1399e0b28a741c0ee0220303d5ce926c60bf15577f2e407f28a2ef8fe8453abd4048b716e97dbb1e3a85c01210260828bc77486a55e3bc6032ccbeda915d9494eda17b4a54dbe3b24506d40e4ff43030e00").toList

/-- The record the decoder produces for `sample_tx_hex`. -/
def sample_decoded : Transaction :=
  { version := 2, segwit := true,
    inputs := [{ txid :=
                   ("c1368b8e3daedf15612b0185f79f4e82df90f6bcd93714e0e057c355d31c8131").toList,
                 vout := 1, scriptSig := [], sequence := 0xfffffffd }],
    outputs := [{ value := 500000,
                  scriptPubKey := ("001485d78eb795bd9c8a21afefc8b6fdaedf71836809").toList },
                { value := 1050700,
                  scriptPubKey := ("0014840ab165c9c2555d4a31b9208ad806f89d2535e2").toList }],
    witnesses := [[("304402207bce86d430b58bb6b79e8c1bbecdf67a530eff3bc61581a1399e0b28a741c0ee0220303d5ce926c60bf15577f2e407f28a2ef8fe8453abd4048b716e97dbb1e3a85c01").toList,
                   ("0260828bc77486a55e3bc6032ccbeda915d9494eda17b4a54dbe3b24506d40e4ff").toList]],
    locktime := 0x000e0343 }

/-- A minimal legacy transaction: version 1, marker and flag both zero
(so the SegWit check leaves the cursor in place), zero inputs, zero
outputs, locktime 10. -/
def tiny_v1_hex : List Char := ("0100000000000a000000").toList

/-- The same minimal shape with every numeric field zero. -/
def tiny_v0_hex : List Char := ("00000000000000000000").toList

/-- An encoding intended as a legacy transaction with zero inputs: version,
input-count varint `00`, output-count `01`, one output (8-byte value `00..0`,
empty script), locktime `00000000`.  Its 5th byte is `0x00` and its 6th is
`0x01`, so the decoder takes the SegWit branch instead. -/
def legacy_zero_input_hex : List Char :=
  ("01000000" ++ "00" ++ "01" ++ "0000000000000000" ++ "00" ++ "00000000").toList

/-- A single serialized input: 32-byte txid with wire bytes `00 01 ... 1f`,
vout 1, empty scriptSig, sequence `0xffffffff`. -/
def single_input_hex : List Char :=
  ("000102030405060708090a0b0c0d0e0f101112131415161718191a1b1c1d1e1f0100000000ffffffff").toList

/-- The wire bytes of the txid in `single_input_hex`. -/
def single_input_txid_bytes : List Nat :=
  [0x00, 0x01, 0x02, 0x03, 0x04, 0x05, 0x06, 0x07,
   0x08, 0x09, 0x0a, 0x0b, 0x0c, 0x0d, 0x0e, 0x0f,
   0x10, 0x11, 0x12, 0x13, 0x14, 0x15, 0x16, 0x17,
   0x18, 0x19, 0x1a, 0x1b, 0x1c, 0x1d, 0x1e, 0x1f]

/-- The input record decoded from `single_input_hex`. -/
def single_input_decoded : TxInput :=
  { txid := ("1f1e1d1c1b1a191817161514131211100f0e0d0c0b0a09080706050403020100").toList,
    vout := 1, scriptSig := [], sequence := 0xffffffff }

/-- The specification's reading of a fixed-width numeric field: the bytes
are "interpreted as little-endian unsigned integers", i.e. byte `i` is
weighted by `256 ^ i`.  Stated from the spec's words, to be compared with
the source-derived `int_from_bytes_le`. -/
def spec_little_endian_value (bs : List Nat) : Nat :=
  ∑ i ∈ Finset.range bs.length, bs.getD i 0 * 256 ^ i

theorem bytes_hex_length (bs : List Nat) : (bytes_hex bs).length = 2 * bs.length := by
  induction bs with
  | nil => rfl
  | cons b bs ih => simp only [bytes_hex, List.length_cons, ih]; omega

theorem parse_inputs_length (tx_hex : List Char) :
    ∀ n offset l offset2, parse_inputs tx_hex n offset = some (l, offset2) → l.length = n := by
  intro n
  induction n with
  | zero =>
    intro offset l offset2 h
    unfold parse_inputs at h
    simp only [Option.some.injEq, Prod.mk.injEq] at h
    obtain ⟨h1, _⟩ := h
    subst h1
    rfl
  | succ n ih =>
    intro offset l offset2 h
    unfold parse_inputs at h
    repeat' split at h
    all_goals try exact Option.noConfusion h
    rename_i s1 i off1 heq1 s2 rest off2 heq2
    simp only [Option.some.injEq, Prod.mk.injEq] at h
    obtain ⟨h1, _⟩ := h
    subst h1
    simp [ih _ _ _ heq2]

theorem parse_witnesses_length (tx_hex : List Char) :
    ∀ n offset l offset2, parse_witnesses tx_hex n offset = some (l, offset2) → l.length = n := by
  intro n
  induction n with
  | zero =>
    intro offset l offset2 h
    unfold parse_witnesses at h
    simp only [Option.some.injEq, Prod.mk.injEq] at h
    obtain ⟨h1, _⟩ := h
    subst h1
    rfl
  | succ n ih =>
    intro offset l offset2 h
    unfold parse_witnesses at h
    repeat' split at h
    all_goals try exact Option.noConfusion h
    rename_i s1 stack off1 heq1 s2 rest off2 heq2
    simp only [Option.some.injEq, Prod.mk.injEq] at h
    obtain ⟨h1, _⟩ := h
    subst h1
    simp [ih _ _ _ heq2]

/-- C1: the multi-byte varint forms do not decode little-endian.  The code
interprets the follow-on hex characters with `int(..., 16)`, i.e.
big-endian: the 0xfd-form encoding of 253 (`fdfd00`) decodes to 64768, the
0xfe-form encoding of 65536 (`fe00000100`) to 256, and the 0xff-form
encoding of 2^32 (`ff0000000001000000`) to 16777216, in each case with the
consumed length (in hex characters, two per byte) as the claim states. -/
theorem read_varint_multibyte_values :
    read_varint ("fdfd00").toList 0 = some (64768, 6) ∧
    read_varint ("fe00000100").toList 0 = some (256, 10) ∧
    read_varint ("ff0000000001000000").toList 0 = some (16777216, 18) ∧
    (64768 : Nat) ≠ 253 ∧ (256 : Nat) ≠ 65536 ∧ (16777216 : Nat) ≠ 2 ^ 32 := by
  decide

/-- C2: truncation is not fatal.  Dropping the final byte of the sample
transaction (keeping 442 of its 444 hex characters) still returns a
record; the locktime is read from the three remaining bytes. -/
theorem parse_transaction_truncated_still_returns_record :
    sample_tx_hex.length = 444 ∧
    (parse_transaction (sample_tx_hex.take 442)).isSome = true ∧
    (parse_transaction (sample_tx_hex.take 442)).map Transaction.locktime = some 918339 := by
  decide

/-- C3: the SegWit detection step immediately after the version: when the
marker byte reads 0 and the flag byte reads non-zero, the result is
`segwit = true` with the cursor advanced by 4 hex characters (2 bytes); in
every other case `segwit = false` with the cursor unchanged, so the same
characters are re-read as the input-count varint at that offset. -/
theorem segwit_marker_flag_detection (tx_hex : List Char) (offset marker flag : Nat)
    (h1 : int_hex (pySlice tx_hex offset (offset + 2)) = some marker)
    (h2 : int_hex (pySlice tx_hex (offset + 2) (offset + 4)) = some flag) :
    segwit_check tx_hex offset =
      some (if marker = 0 ∧ flag ≠ 0 then (true, offset + 4) else (false, offset)) := by
  unfold segwit_check
  rw [h1, h2]
  by_cases hc : marker = 0 ∧ flag ≠ 0
  · simp [hc]
  · simp [hc]

theorem segwit_marker_flag_detection_witness :
    segwit_check sample_tx_hex 8 =
      some (if (0 : Nat) = 0 ∧ (1 : Nat) ≠ 0 then (true, 8 + 4) else (false, 8)) :=
  segwit_marker_flag_detection sample_tx_hex 8 0 1 (by rfl) (by rfl)

/-- C4: decoding the sample transaction from the main block yields
version 2, segwit true, exactly one input with vout 1 and sequence
0xfffffffd, exactly two outputs, exactly one witness stack with two items,
and locktime 0x000e0343. -/
theorem sample_transaction_decode :
    (parse_transaction sample_tx_hex).map Transaction.version = some 2 ∧
    (parse_transaction sample_tx_hex).map Transaction.segwit = some true ∧
    (parse_transaction sample_tx_hex).map (fun tx => tx.inputs.map TxInput.vout) = some [1] ∧
    (parse_transaction sample_tx_hex).map (fun tx => tx.inputs.map TxInput.sequence) =
      some [0xfffffffd] ∧
    (parse_transaction sample_tx_hex).map (fun tx => tx.outputs.length) = some 2 ∧
    (parse_transaction sample_tx_hex).map (fun tx => tx.witnesses.map List.length) = some [2] ∧
    (parse_transaction sample_tx_hex).map Transaction.locktime = some 0x000e0343 := by
  decide

/-- C5: whenever decoding succeeds, the witness list is empty for a
non-SegWit transaction and has exactly one stack per input for a SegWit
transaction (both loops run exactly input_count times). -/
theorem witnesses_align_with_inputs (tx_hex : List Char) (tx : Transaction)
    (h : parse_transaction tx_hex = some tx) :
    (tx.segwit = false → tx.witnesses = []) ∧
    (tx.segwit = true → tx.witnesses.length = tx.inputs.length) := by
  unfold parse_transaction at h
  repeat' split at h
  all_goals try exact Option.noConfusion h
  rename_i s1 vb off1 heq1 s2 sw off2 heq2 s3 icount off3 heq3 s4 inputs off4 heq4
    s5 ocount off5 heq5 s6 outputs off6 heq6 s7 wits off7 heq7 s8 lb off9 heq8
  simp only [Option.some.injEq] at h
  subst h
  constructor
  · intro hsw
    have hsw' : sw = false := hsw
    subst hsw'
    rw [if_neg Bool.false_ne_true] at heq7
    injection heq7 with hpair
    injection hpair with h1 h2
    subst h1
    rfl
  · intro hsw
    have hsw' : sw = true := hsw
    subst hsw'
    rw [if_pos rfl] at heq7
    have e1 := parse_witnesses_length tx_hex icount off6 wits off7 heq7
    have e2 := parse_inputs_length tx_hex icount off3 inputs off4 heq4
    show wits.length = inputs.length
    rw [e1, e2]

theorem witnesses_align_with_inputs_witness :
    (sample_decoded.segwit = false → sample_decoded.witnesses = []) ∧
    (sample_decoded.segwit = true →
      sample_decoded.witnesses.length = sample_decoded.inputs.length) :=
  witnesses_align_with_inputs sample_tx_hex sample_decoded (by decide)

/-- C6: the fixed-width numeric fields are interpreted little-endian: the
source's `int.from_bytes(..., 'little')` agrees with the specification's
byte-weighted sum for every byte list, a version field `01000000` decodes
to 1 and `00000000` to 0, a 4-byte locktime `0a000000` decodes to 10, and
the 8-byte output values of the sample decode little-endian. -/
theorem fixed_width_fields_little_endian :
    (∀ bs : List Nat, int_from_bytes_le bs = spec_little_endian_value bs) ∧
    (parse_transaction tiny_v1_hex).map Transaction.version = some 1 ∧
    (parse_transaction tiny_v1_hex).map Transaction.locktime = some 10 ∧
    (parse_transaction tiny_v0_hex).map Transaction.version = some 0 ∧
    (parse_transaction sample_tx_hex).map (fun tx => tx.outputs.map TxOutput.value) =
      some [500000, 1050700] := by
  refine ⟨?_, by decide, by decide, by decide, by decide⟩
  intro bs
  induction bs with
  | nil => rfl
  | cons b bs ih =>
    have key : spec_little_endian_value (b :: bs) = b + 256 * spec_little_endian_value bs := by
      unfold spec_little_endian_value
      rw [List.length_cons, Finset.sum_range_succ']
      simp only [List.getD_cons_succ, List.getD_cons_zero, pow_zero, mul_one, pow_succ]
      rw [Finset.mul_sum, Nat.add_comm]
      congr 1
      exact Finset.sum_congr rfl (fun i _ => by ring)
    rw [int_from_bytes_le, ih, key]

/-- C7: every successfully decoded input displays its txid as the 32 wire
bytes in reversed byte order, hex-encoded; when the wire read yields 32
bytes the displayed txid has 64 characters. -/
theorem input_txid_display_reversed (tx_hex : List Char) (offset : Nat) (inp : TxInput)
    (offset2 : Nat) (h : parse_input tx_hex offset = some (inp, offset2))
    (txid_bytes : List Nat) (tboff : Nat)
    (h2 : read_bytes tx_hex offset 32 = some (txid_bytes, tboff)) :
    inp.txid = bytes_hex txid_bytes.reverse ∧
    (txid_bytes.length = 32 → inp.txid.length = 64) := by
  unfold parse_input at h
  repeat' split at h
  all_goals try exact Option.noConfusion h
  rename_i s1 tb o1 heq1 s2 voutb o2 heq2 s3 slen o3 heq3 s4 ssb o4 heq4 s5 seqb o5 heq5
  rw [heq1] at h2
  simp only [Option.some.injEq, Prod.mk.injEq] at h h2
  obtain ⟨h2a, _⟩ := h2
  subst h2a
  obtain ⟨ha, _⟩ := h
  subst ha
  refine ⟨rfl, fun hl => ?_⟩
  show (bytes_hex tb.reverse).length = 64
  rw [bytes_hex_length, List.length_reverse, hl]

theorem input_txid_display_reversed_witness :
    single_input_decoded.txid = bytes_hex single_input_txid_bytes.reverse ∧
    (single_input_txid_bytes.length = 32 → single_input_decoded.txid.length = 64) :=
  input_txid_display_reversed single_input_hex 0 single_input_decoded 82 (by decide)
    single_input_txid_bytes 64 (by decide)

/-- C8: the cursor can exceed the input length, because `read_bytes`
advances the offset by the declared width regardless of how many bytes are
actually available: reading 4 bytes from the 2-character input `00` returns
one byte and leaves the offset at 8. -/
theorem read_bytes_offset_can_exceed_length :
    read_bytes (("00").toList) 0 4 = some ([0], 8) ∧ (("00").toList).length = 2 := by
  decide

/-- C9: invalid hexadecimal is not rejected up front.  Appending one
character to the sample gives an odd-length string (which `bytes.fromhex`
on the whole string rejects), yet the decoder still returns a record
because it only ever converts the slices it reads. -/
theorem invalid_hex_still_returns_record :
    (sample_tx_hex ++ [Char.ofNat 102]).length % 2 = 1 ∧
    bytes_fromhex (sample_tx_hex ++ [Char.ofNat 102]) = none ∧
    (parse_transaction (sample_tx_hex ++ [Char.ofNat 102])).map Transaction.version = some 2 := by
  decide

/-- C10: any input whose 5th byte reads 0 and whose 6th byte reads non-zero
is classified as SegWit with both bytes consumed; in particular the legacy
zero-input encoding `legacy_zero_input_hex` decodes with segwit true and
zero inputs rather than as a zero-input non-SegWit transaction. -/
theorem zero_marker_nonzero_flag_is_segwit :
    (∀ (tx_hex : List Char) (flag : Nat),
        int_hex (pySlice tx_hex 8 10) = some 0 →
        int_hex (pySlice tx_hex 10 12) = some flag → flag ≠ 0 →
        segwit_check tx_hex 8 = some (true, 12)) ∧
    (parse_transaction legacy_zero_input_hex).map Transaction.segwit = some true ∧
    (parse_transaction legacy_zero_input_hex).map (fun tx => tx.inputs.length) = some 0 := by
  refine ⟨?_, by decide, by decide⟩
  intro tx_hex flag h1 h2 h3
  unfold segwit_check
  norm_num
  rw [h1, h2]
  simp [h3]

theorem zero_marker_nonzero_flag_is_segwit_witness :
    segwit_check legacy_zero_input_hex 8 = some (true, 12) :=
  zero_marker_nonzero_flag_is_segwit.1 legacy_zero_input_hex 1 (by rfl) (by rfl) (by decide)